import Mathlib

/-!
# Battery Monitor Board firmware (Firmware/main.c)

A shallow embedding of the acquisition / averaging / encoding pipeline of
`Firmware/main.c`: the twelve per-cell sample buffers, the per-cell averages,
the telemetry frame `cellMsg`, and the functions `fillBuffers`,
`clearVoltages`, `sumBuffers`, `updateMessage`, the interrupt handler
`TIMER0_ISR` and the start-up sequence and scheduler loop of `main`.

Only code that is compiled is embedded: text of the source that lies inside a
comment (lines 195-211 of `TIMER0_ISR`, line 228 and lines 246-250 of `main`)
is not executed and has no counterpart here.

Machine integers are natural numbers reduced modulo `2^w` wherever the C code
stores into a `w`-bit object.  C arrays are lists; every `for` loop of the
source is a left fold of its body over `0, 1, ..., n-1`.
-/

namespace BatteryMonitor

/-! ## Constants (main.c lines 35-37) -/

/-- Length of the telemetry frame: `const uint8_t CELL_MSG_LEN = 3`. -/
def CELL_MSG_LEN : Nat := 3

/-- Shift used to divide a buffer sum: `const uint8_t BUFF_SIZE_INT = 7`. -/
def BUFF_SIZE_INT : Nat := 7

/-- Declared length of every sample buffer, bound of the fill and sum loops,
and mask applied to the cursor: `const uint8_t BUFF_SIZE = 0x7F`. -/
def BUFF_SIZE : Nat := 0x7F

/-! ## Machine integers -/

/-- Conversion to `uint8_t`. -/
def u8 (x : Nat) : Nat := x % 2 ^ 8

/-- Conversion to `uint32_t`. -/
def u32 (x : Nat) : Nat := x % 2 ^ 32

/-! ## Global variables (main.c lines 48-69) -/

/-- The global variables of the firmware that the pipeline reads or writes.
Field names are those of the source. -/
structure State where
  /-- Frame `uint8_t cellMsg[CELL_MSG_LEN]`. -/
  cellMsg : List Nat
  /-- Raw readings `uint32_t tempData[12]`. -/
  tempData : List Nat
  /-- Shared cursor `uint16_t bufferIndex`. -/
  bufferIndex : Nat
  /-- Buffer `uint16_t Bat0Cell0[BUFF_SIZE]`. -/
  Bat0Cell0 : List Nat
  /-- Buffer `uint16_t Bat0Cell1[BUFF_SIZE]`. -/
  Bat0Cell1 : List Nat
  /-- Buffer `uint16_t Bat0Cell2[BUFF_SIZE]`. -/
  Bat0Cell2 : List Nat
  /-- Buffer `uint16_t Bat0Cell3[BUFF_SIZE]`. -/
  Bat0Cell3 : List Nat
  /-- Buffer `uint16_t Bat0Cell4[BUFF_SIZE]`. -/
  Bat0Cell4 : List Nat
  /-- Buffer `uint16_t Bat0Cell5[BUFF_SIZE]`. -/
  Bat0Cell5 : List Nat
  /-- Averages `uint32_t Bat0Cell[6]`. -/
  Bat0Cell : List Nat
  /-- Buffer `uint16_t Bat1Cell0[BUFF_SIZE]`. -/
  Bat1Cell0 : List Nat
  /-- Buffer `uint16_t Bat1Cell1[BUFF_SIZE]`. -/
  Bat1Cell1 : List Nat
  /-- Buffer `uint16_t Bat1Cell2[BUFF_SIZE]`. -/
  Bat1Cell2 : List Nat
  /-- Buffer `uint16_t Bat1Cell3[BUFF_SIZE]`. -/
  Bat1Cell3 : List Nat
  /-- Buffer `uint16_t Bat1Cell4[BUFF_SIZE]`. -/
  Bat1Cell4 : List Nat
  /-- Buffer `uint16_t Bat1Cell5[BUFF_SIZE]`. -/
  Bat1Cell5 : List Nat
  /-- Averages `uint32_t Bat1Cell[6]`. -/
  Bat1Cell : List Nat
  deriving DecidableEq, Repr

/-- The state at power-on: `cellMsg` is initialised from the string `"x37"`,
`Bat0Cell` and `Bat1Cell` from `{0}`, and every object without an initialiser
has static storage and is therefore zero. -/
def powerOn : State where
  cellMsg := [0x78, 0x33, 0x37]
  tempData := List.replicate 12 0
  bufferIndex := 0
  Bat0Cell0 := List.replicate BUFF_SIZE 0
  Bat0Cell1 := List.replicate BUFF_SIZE 0
  Bat0Cell2 := List.replicate BUFF_SIZE 0
  Bat0Cell3 := List.replicate BUFF_SIZE 0
  Bat0Cell4 := List.replicate BUFF_SIZE 0
  Bat0Cell5 := List.replicate BUFF_SIZE 0
  Bat0Cell := List.replicate 6 0
  Bat1Cell0 := List.replicate BUFF_SIZE 0
  Bat1Cell1 := List.replicate BUFF_SIZE 0
  Bat1Cell2 := List.replicate BUFF_SIZE 0
  Bat1Cell3 := List.replicate BUFF_SIZE 0
  Bat1Cell4 := List.replicate BUFF_SIZE 0
  Bat1Cell5 := List.replicate BUFF_SIZE 0
  Bat1Cell := List.replicate 6 0

/-- The sample buffer the source names `Bat<b>Cell<c>`. -/
def buffer (s : State) (b c : Nat) : List Nat :=
  match b, c with
  | 0, 0 => s.Bat0Cell0
  | 0, 1 => s.Bat0Cell1
  | 0, 2 => s.Bat0Cell2
  | 0, 3 => s.Bat0Cell3
  | 0, 4 => s.Bat0Cell4
  | 0, 5 => s.Bat0Cell5
  | 1, 0 => s.Bat1Cell0
  | 1, 1 => s.Bat1Cell1
  | 1, 2 => s.Bat1Cell2
  | 1, 3 => s.Bat1Cell3
  | 1, 4 => s.Bat1Cell4
  | 1, 5 => s.Bat1Cell5
  | _, _ => []

/-- The average slot `Bat<b>Cell[c]`. -/
def average (s : State) (b c : Nat) : Nat :=
  match b with
  | 0 => s.Bat0Cell.getD c 0
  | 1 => s.Bat1Cell.getD c 0
  | _ => 0

/-- The twelve sample buffers, in declaration order. -/
def allBuffers (s : State) : List (List Nat) :=
  [s.Bat0Cell0, s.Bat0Cell1, s.Bat0Cell2, s.Bat0Cell3, s.Bat0Cell4, s.Bat0Cell5,
   s.Bat1Cell0, s.Bat1Cell1, s.Bat1Cell2, s.Bat1Cell3, s.Bat1Cell4, s.Bat1Cell5]

/-- The state respects the declarations of the source: every buffer has
`BUFF_SIZE` entries of type `uint16_t`, both average arrays have six entries of
type `uint32_t`, the frame has `CELL_MSG_LEN` bytes, `tempData` has twelve
`uint32_t` entries and the cursor is a `uint16_t`. -/
def WellFormed (s : State) : Prop :=
  (∀ buf ∈ allBuffers s, buf.length = BUFF_SIZE ∧ ∀ x ∈ buf, x < 2 ^ 16) ∧
  (s.Bat0Cell.length = 6 ∧ ∀ x ∈ s.Bat0Cell, x < 2 ^ 32) ∧
  (s.Bat1Cell.length = 6 ∧ ∀ x ∈ s.Bat1Cell, x < 2 ^ 32) ∧
  (s.cellMsg.length = CELL_MSG_LEN ∧ ∀ x ∈ s.cellMsg, x < 2 ^ 8) ∧
  (s.tempData.length = 12 ∧ ∀ x ∈ s.tempData, x < 2 ^ 32) ∧
  s.bufferIndex < 2 ^ 16

instance (s : State) : Decidable (WellFormed s) := by
  unfold WellFormed; infer_instance

/-! ## Loops -/

/-- The loop `for (int i = 0; i < n; i++) body`. -/
def forLoop (n : Nat) (body : Nat → State → State) (s : State) : State :=
  (List.range n).foldl (fun st i => body i st) s

/-! ## fillBuffers (main.c lines 120-137) -/

/-- Body of the loop of `fillBuffers`: entry `i` of each of the twelve buffers
is set to `0xFF`. -/
def fillBuffersBody (i : Nat) (s : State) : State :=
  { s with
    Bat0Cell0 := s.Bat0Cell0.set i 0xFF
    Bat0Cell1 := s.Bat0Cell1.set i 0xFF
    Bat0Cell2 := s.Bat0Cell2.set i 0xFF
    Bat0Cell3 := s.Bat0Cell3.set i 0xFF
    Bat0Cell4 := s.Bat0Cell4.set i 0xFF
    Bat0Cell5 := s.Bat0Cell5.set i 0xFF
    Bat1Cell0 := s.Bat1Cell0.set i 0xFF
    Bat1Cell1 := s.Bat1Cell1.set i 0xFF
    Bat1Cell2 := s.Bat1Cell2.set i 0xFF
    Bat1Cell3 := s.Bat1Cell3.set i 0xFF
    Bat1Cell4 := s.Bat1Cell4.set i 0xFF
    Bat1Cell5 := s.Bat1Cell5.set i 0xFF }

/-- Function `void fillBuffers(void)`. -/
def fillBuffers (s : State) : State :=
  forLoop BUFF_SIZE fillBuffersBody s

/-! ## clearVoltages and sumBuffers (main.c lines 139-170) -/

/-- Body of the loop of `clearVoltages`. -/
def clearVoltagesBody (i : Nat) (s : State) : State :=
  { s with
    Bat0Cell := s.Bat0Cell.set i 0
    Bat1Cell := s.Bat1Cell.set i 0 }

/-- Function `void clearVoltages(void)`. -/
def clearVoltages (s : State) : State :=
  forLoop 6 clearVoltagesBody s

/-- The statement `acc[c] += v` on a `uint32_t` array. -/
def addAt (acc : List Nat) (c v : Nat) : List Nat :=
  acc.set c (u32 (acc.getD c 0 + v))

/-- Body of the summing loop of `sumBuffers` (lines 151-163). -/
def sumBody (i : Nat) (s : State) : State :=
  let a0 := addAt s.Bat0Cell 0 (s.Bat0Cell0.getD i 0)
  let a1 := addAt a0 1 (s.Bat0Cell1.getD i 0)
  let a2 := addAt a1 2 (s.Bat0Cell2.getD i 0)
  let a3 := addAt a2 3 (s.Bat0Cell3.getD i 0)
  let a4 := addAt a3 4 (s.Bat0Cell4.getD i 0)
  let a5 := addAt a4 5 (s.Bat0Cell5.getD i 0)
  let b0 := addAt s.Bat1Cell 0 (s.Bat1Cell0.getD i 0)
  let b1 := addAt b0 1 (s.Bat1Cell1.getD i 0)
  let b2 := addAt b1 2 (s.Bat1Cell2.getD i 0)
  let b3 := addAt b2 3 (s.Bat1Cell3.getD i 0)
  let b4 := addAt b3 4 (s.Bat1Cell4.getD i 0)
  let b5 := addAt b4 5 (s.Bat1Cell5.getD i 0)
  { s with Bat0Cell := a5, Bat1Cell := b5 }

/-- Body of the averaging loop of `sumBuffers` (lines 166-169). -/
def shiftBody (i : Nat) (s : State) : State :=
  let s1 := { s with Bat0Cell := s.Bat0Cell.set i (s.Bat0Cell.getD i 0 >>> BUFF_SIZE_INT) }
  { s1 with Bat1Cell := s1.Bat1Cell.set i (s1.Bat1Cell.getD i 0 >>> BUFF_SIZE_INT) }

/-- The state of `sumBuffers` after `clearVoltages` and the first `k`
iterations of the summing loop. -/
def sumLoop (k : Nat) (s : State) : State :=
  forLoop k sumBody (clearVoltages s)

/-- Function `void sumBuffers(void)`. -/
def sumBuffers (s : State) : State :=
  forLoop 6 shiftBody (sumLoop BUFF_SIZE s)

/-! ## updateMessage (main.c lines 173-185) -/

/-- Function `void updateMessage(uint8_t batteryNum, uint8_t cellNum)`. -/
def updateMessage (batteryNum cellNum : Nat) (s : State) : State :=
  let s0 := { s with cellMsg := s.cellMsg.set 0 (u8 ((batteryNum <<< 4) + cellNum)) }
  if batteryNum = 0 then
    let s1 := { s0 with cellMsg := s0.cellMsg.set 1 (u8 (s0.Bat0Cell.getD cellNum 0 >>> 8)) }
    { s1 with cellMsg := s1.cellMsg.set 2 (u8 (s1.Bat0Cell.getD cellNum 0)) }
  else if batteryNum = 1 then
    let s1 := { s0 with cellMsg := s0.cellMsg.set 1 (u8 (s0.Bat1Cell.getD cellNum 0 >>> 8)) }
    { s1 with cellMsg := s1.cellMsg.set 2 (u8 (s1.Bat1Cell.getD cellNum 0)) }
  else
    s0

/-! ## TIMER0_ISR (main.c lines 188-219) -/

/-- The globals together with the two interrupt enables that the start-up
sequence sets through the driver library. -/
structure Machine where
  /-- The global variables. -/
  mem : State
  /-- Set by `IntEnable(INT_TIMER0B)` inside `initTimer0`. -/
  timerIntEnabled : Bool
  /-- Set by `IntMasterEnable()`. -/
  masterIntEnabled : Bool
  deriving DecidableEq, Repr

/-- The machine at reset: globals at their initial values, interrupts off. -/
def reset : Machine where
  mem := powerOn
  timerIntEnabled := false
  masterIntEnabled := false

/-- Function `initTimer0`: configures timer 0 B and enables its interrupt. -/
def initTimer0 (m : Machine) : Machine :=
  { m with timerIntEnabled := true }

/-- Driver call `IntMasterEnable()`. -/
def IntMasterEnable (m : Machine) : Machine :=
  { m with masterIntEnabled := true }

/-- The statements of `main` before the `while (1)` loop (lines 225-241).  The
clock, GPIO, CAN and ADC initialisation calls touch no global of `State`.  Line
228, the call of `fillBuffers`, is a comment in the source and is therefore not
executed. -/
def mainStartup (m : Machine) : Machine :=
  -- MIL_ClkSetInt_16MHz(); initGPIO();
  -- //fillBuffers();
  -- MIL_CANPortClkEnable(..); MIL_InitCAN(..); MIL_ADCSeqInit(..);
  let m := initTimer0 m
  -- TimerControlTrigger(TIMER0_BASE, TIMER_B, true);
  IntMasterEnable m

/-- The sampling interrupt can fire: both enables are set. -/
def samplingEnabled (m : Machine) : Bool :=
  m.timerIntEnabled && m.masterIntEnabled

/-- One advance of the loop nest
`while (1) for (i = 0; i < 2; i++) for (j = 0; j < 6; j++)` of `main`, acting on
the loop variables `(i, j)`: `j` is incremented; when it reaches 6 the inner
loop ends, `i` is incremented and `j` restarts at 0; when `i` reaches 2 the
outer loop ends and the `while` restarts both. -/
def schedulerNext (p : Nat × Nat) : Nat × Nat :=
  if p.2 + 1 < 6 then (p.1, p.2 + 1)
  else if p.1 + 1 < 2 then (p.1 + 1, 0)
  else (0, 0)

/-- The loop variables `(i, j)` at the `n`-th execution of the inner loop body,
counted from 0 at start-up. -/
def visit (n : Nat) : Nat × Nat :=
  schedulerNext^[n] (0, 0)

/-- The pairs visited by the twelve consecutive advances that begin with
advance number `m`. -/
def window (m : Nat) : List (Nat × Nat) :=
  (List.range 12).map (fun k => visit (m + k))

/-! ## Auxiliary definitions used in the statements -/

/-- Value of a `uint32_t` accumulator that starts at zero after the first `k`
entries of `buf` have been added to it, each addition wrapping at `2^32`. -/
def acc32 (buf : List Nat) : Nat → Nat
  | 0 => 0
  | k + 1 => u32 (acc32 buf k + buf.getD k 0)

/-- The state `s` with the average slot `Bat<b>Cell[c]` holding `a`. -/
def withAverage (s : State) (b c a : Nat) : State :=
  match b with
  | 0 => { s with Bat0Cell := s.Bat0Cell.set c a }
  | 1 => { s with Bat1Cell := s.Bat1Cell.set c a }
  | _ => s

/-- The frame left by `updateMessage(b, c)` when the stored average of that
cell is `a`. -/
def encode (b c a : Nat) : List Nat :=
  (updateMessage b c (withAverage powerOn b c a)).cellMsg

/-- The state in which every buffer entry holds the fill value: the result of
`fillBuffers` on the power-on state. -/
def filled : State :=
  fillBuffers powerOn

/-! ## Loop and list lemmas -/

theorem forLoop_zero (body : Nat → State → State) (s : State) : forLoop 0 body s = s := rfl

theorem forLoop_succ (n : Nat) (body : Nat → State → State) (s : State) :
    forLoop (n + 1) body s = body n (forLoop n body s) := by
  simp [forLoop, List.range_succ, List.foldl_append]

theorem sum_take_succ_getD (buf : List Nat) (k : Nat) :
    (buf.take (k + 1)).sum = (buf.take k).sum + buf.getD k 0 := by
  induction buf generalizing k with
  | nil => simp
  | cons x xs ih =>
    cases k with
    | zero => simp
    | succ k => simp [ih k, Nat.add_assoc]

theorem sum_take_le (buf : List Nat) (B : Nat) (h : ∀ x ∈ buf, x ≤ B) (k : Nat) :
    (buf.take k).sum ≤ k * B := by
  induction buf generalizing k with
  | nil => simp
  | cons x xs ih =>
    cases k with
    | zero => simp
    | succ k =>
      have hx : x ≤ B := h x (by simp)
      have := ih (fun y hy => h y (by simp [hy])) k
      simp only [List.take_succ_cons, List.sum_cons]
      nlinarith

theorem acc32_eq_sum_take (buf : List Nat) (h : ∀ x ∈ buf, x < 2 ^ 16) (k : Nat)
    (hk : k ≤ 2 ^ 16) : acc32 buf k = (buf.take k).sum := by
  induction k with
  | zero => simp [acc32]
  | succ k ih =>
    have hb := sum_take_le buf (2 ^ 16 - 1) (fun x hx => by have := h x hx; omega) (k + 1)
    have hlt : (buf.take (k + 1)).sum < 2 ^ 32 := by
      have : (k + 1) * (2 ^ 16 - 1) ≤ 2 ^ 16 * (2 ^ 16 - 1) := Nat.mul_le_mul_right _ hk
      norm_num at this hb ⊢
      omega
    rw [acc32, ih (by omega), ← sum_take_succ_getD, u32, Nat.mod_eq_of_lt hlt]

theorem list_length_six (l : List Nat) (h : l.length = 6) :
    ∃ a b c d e f, l = [a, b, c, d, e, f] := by
  match l, h with
  | [a, b, c, d, e, f], _ => exact ⟨a, b, c, d, e, f, rfl⟩

theorem range_six : List.range 6 = [0, 1, 2, 3, 4, 5] := by decide

theorem clearVoltages_eq (s : State) (h0 : s.Bat0Cell.length = 6) (h1 : s.Bat1Cell.length = 6) :
    clearVoltages s = { s with Bat0Cell := [0, 0, 0, 0, 0, 0], Bat1Cell := [0, 0, 0, 0, 0, 0] } := by
  obtain ⟨a, b, c, d, e, f, ha⟩ := list_length_six _ h0
  obtain ⟨a', b', c', d', e', f', hb⟩ := list_length_six _ h1
  simp [clearVoltages, forLoop, range_six, clearVoltagesBody, ha, hb]

theorem sumLoop_eq (s : State) (h0 : s.Bat0Cell.length = 6) (h1 : s.Bat1Cell.length = 6)
    (k : Nat) :
    sumLoop k s =
      { s with
        Bat0Cell := [acc32 s.Bat0Cell0 k, acc32 s.Bat0Cell1 k, acc32 s.Bat0Cell2 k,
                     acc32 s.Bat0Cell3 k, acc32 s.Bat0Cell4 k, acc32 s.Bat0Cell5 k]
        Bat1Cell := [acc32 s.Bat1Cell0 k, acc32 s.Bat1Cell1 k, acc32 s.Bat1Cell2 k,
                     acc32 s.Bat1Cell3 k, acc32 s.Bat1Cell4 k, acc32 s.Bat1Cell5 k] } := by
  induction k with
  | zero => simp [sumLoop, forLoop_zero, clearVoltages_eq s h0 h1, acc32]
  | succ k ih =>
    rw [sumLoop, forLoop_succ, ← sumLoop, ih]
    simp [sumBody, addAt, acc32]

theorem shiftLoop_eq (s : State) (a0 a1 a2 a3 a4 a5 b0 b1 b2 b3 b4 b5 : Nat)
    (h0 : s.Bat0Cell = [a0, a1, a2, a3, a4, a5]) (h1 : s.Bat1Cell = [b0, b1, b2, b3, b4, b5]) :
    forLoop 6 shiftBody s =
      { s with
        Bat0Cell := [a0 >>> BUFF_SIZE_INT, a1 >>> BUFF_SIZE_INT, a2 >>> BUFF_SIZE_INT,
                     a3 >>> BUFF_SIZE_INT, a4 >>> BUFF_SIZE_INT, a5 >>> BUFF_SIZE_INT]
        Bat1Cell := [b0 >>> BUFF_SIZE_INT, b1 >>> BUFF_SIZE_INT, b2 >>> BUFF_SIZE_INT,
                     b3 >>> BUFF_SIZE_INT, b4 >>> BUFF_SIZE_INT, b5 >>> BUFF_SIZE_INT] } := by
  simp [forLoop, range_six, shiftBody, h0, h1]

theorem sumBuffers_eq (s : State) (h0 : s.Bat0Cell.length = 6) (h1 : s.Bat1Cell.length = 6) :
    sumBuffers s =
      { s with
        Bat0Cell := [acc32 s.Bat0Cell0 BUFF_SIZE >>> BUFF_SIZE_INT,
                     acc32 s.Bat0Cell1 BUFF_SIZE >>> BUFF_SIZE_INT,
                     acc32 s.Bat0Cell2 BUFF_SIZE >>> BUFF_SIZE_INT,
                     acc32 s.Bat0Cell3 BUFF_SIZE >>> BUFF_SIZE_INT,
                     acc32 s.Bat0Cell4 BUFF_SIZE >>> BUFF_SIZE_INT,
                     acc32 s.Bat0Cell5 BUFF_SIZE >>> BUFF_SIZE_INT]
        Bat1Cell := [acc32 s.Bat1Cell0 BUFF_SIZE >>> BUFF_SIZE_INT,
                     acc32 s.Bat1Cell1 BUFF_SIZE >>> BUFF_SIZE_INT,
                     acc32 s.Bat1Cell2 BUFF_SIZE >>> BUFF_SIZE_INT,
                     acc32 s.Bat1Cell3 BUFF_SIZE >>> BUFF_SIZE_INT,
                     acc32 s.Bat1Cell4 BUFF_SIZE >>> BUFF_SIZE_INT,
                     acc32 s.Bat1Cell5 BUFF_SIZE >>> BUFF_SIZE_INT] } := by
  rw [sumBuffers, sumLoop_eq s h0 h1, shiftLoop_eq _ _ _ _ _ _ _ _ _ _ _ _ _ rfl rfl]

theorem wellFormed_buffer (s : State) (h : WellFormed s) (b c : Nat) (hb : b < 2) (hc : c < 6) :
    (buffer s b c).length = BUFF_SIZE ∧ ∀ x ∈ buffer s b c, x < 2 ^ 16 := by
  interval_cases b <;> interval_cases c <;> exact h.1 _ (by simp [allBuffers, buffer])

theorem average_sumLoop (s : State) (h0 : s.Bat0Cell.length = 6) (h1 : s.Bat1Cell.length = 6)
    (k b c : Nat) (hb : b < 2) (hc : c < 6) :
    average (sumLoop k s) b c = acc32 (buffer s b c) k := by
  rw [sumLoop_eq s h0 h1]
  interval_cases b <;> interval_cases c <;> simp [average, buffer]

theorem average_sumBuffers (s : State) (h0 : s.Bat0Cell.length = 6) (h1 : s.Bat1Cell.length = 6)
    (b c : Nat) (hb : b < 2) (hc : c < 6) :
    average (sumBuffers s) b c = acc32 (buffer s b c) BUFF_SIZE >>> BUFF_SIZE_INT := by
  rw [sumBuffers_eq s h0 h1]
  interval_cases b <;> interval_cases c <;> simp [average, buffer]

theorem acc32_full (buf : List Nat) (hl : buf.length = BUFF_SIZE) (h : ∀ x ∈ buf, x < 2 ^ 16) :
    acc32 buf BUFF_SIZE = buf.sum := by
  rw [acc32_eq_sum_take buf h BUFF_SIZE (by decide), ← hl, List.take_length]

theorem sum_le_of_wellFormed (buf : List Nat) (hl : buf.length = BUFF_SIZE)
    (h : ∀ x ∈ buf, x < 2 ^ 16) : buf.sum ≤ BUFF_SIZE * (2 ^ 16 - 1) := by
  have := sum_take_le buf (2 ^ 16 - 1) (fun x hx => by have := h x hx; omega) buf.length
  rwa [List.take_length, hl] at this

theorem set_fill (v : Nat) (l : List Nat) (k : Nat) (hk : k < l.length) :
    (List.replicate k v ++ l.drop k).set k v = List.replicate (k + 1) v ++ l.drop (k + 1) := by
  induction k generalizing l with
  | zero =>
    cases l with
    | nil => simp at hk
    | cons x xs => simp
  | succ k ih =>
    cases l with
    | nil => simp at hk
    | cons x xs =>
      have hk2 : k < xs.length := by simpa using hk
      have := ih xs hk2
      simp [List.replicate_succ, this]

theorem fillLoop_eq (s : State) (h : ∀ buf ∈ allBuffers s, buf.length = BUFF_SIZE) (k : Nat)
    (hk : k ≤ BUFF_SIZE) :
    forLoop k fillBuffersBody s =
      { s with
        Bat0Cell0 := List.replicate k 0xFF ++ s.Bat0Cell0.drop k
        Bat0Cell1 := List.replicate k 0xFF ++ s.Bat0Cell1.drop k
        Bat0Cell2 := List.replicate k 0xFF ++ s.Bat0Cell2.drop k
        Bat0Cell3 := List.replicate k 0xFF ++ s.Bat0Cell3.drop k
        Bat0Cell4 := List.replicate k 0xFF ++ s.Bat0Cell4.drop k
        Bat0Cell5 := List.replicate k 0xFF ++ s.Bat0Cell5.drop k
        Bat1Cell0 := List.replicate k 0xFF ++ s.Bat1Cell0.drop k
        Bat1Cell1 := List.replicate k 0xFF ++ s.Bat1Cell1.drop k
        Bat1Cell2 := List.replicate k 0xFF ++ s.Bat1Cell2.drop k
        Bat1Cell3 := List.replicate k 0xFF ++ s.Bat1Cell3.drop k
        Bat1Cell4 := List.replicate k 0xFF ++ s.Bat1Cell4.drop k
        Bat1Cell5 := List.replicate k 0xFF ++ s.Bat1Cell5.drop k } := by
  induction k with
  | zero => simp [forLoop_zero]
  | succ k ih =>
    have e (buf : List Nat) (hb : buf ∈ allBuffers s) :
        (List.replicate k 0xFF ++ buf.drop k).set k 0xFF
          = List.replicate (k + 1) 0xFF ++ buf.drop (k + 1) :=
      set_fill 0xFF buf k (by have := h buf hb; omega)
    rw [forLoop_succ, ih (by omega)]
    simp only [fillBuffersBody]
    rw [e _ (by simp [allBuffers]), e _ (by simp [allBuffers]), e _ (by simp [allBuffers]),
      e _ (by simp [allBuffers]), e _ (by simp [allBuffers]), e _ (by simp [allBuffers]),
      e _ (by simp [allBuffers]), e _ (by simp [allBuffers]), e _ (by simp [allBuffers]),
      e _ (by simp [allBuffers]), e _ (by simp [allBuffers]), e _ (by simp [allBuffers])]

theorem fillBuffers_eq (s : State) (h : ∀ buf ∈ allBuffers s, buf.length = BUFF_SIZE) :
    fillBuffers s =
      { s with
        Bat0Cell0 := List.replicate BUFF_SIZE 0xFF
        Bat0Cell1 := List.replicate BUFF_SIZE 0xFF
        Bat0Cell2 := List.replicate BUFF_SIZE 0xFF
        Bat0Cell3 := List.replicate BUFF_SIZE 0xFF
        Bat0Cell4 := List.replicate BUFF_SIZE 0xFF
        Bat0Cell5 := List.replicate BUFF_SIZE 0xFF
        Bat1Cell0 := List.replicate BUFF_SIZE 0xFF
        Bat1Cell1 := List.replicate BUFF_SIZE 0xFF
        Bat1Cell2 := List.replicate BUFF_SIZE 0xFF
        Bat1Cell3 := List.replicate BUFF_SIZE 0xFF
        Bat1Cell4 := List.replicate BUFF_SIZE 0xFF
        Bat1Cell5 := List.replicate BUFF_SIZE 0xFF } := by
  have e (buf : List Nat) (hb : buf ∈ allBuffers s) : buf.drop BUFF_SIZE = [] := by
    rw [← h buf hb]; simp
  rw [fillBuffers, fillLoop_eq s h BUFF_SIZE (le_refl _)]
  rw [e _ (by simp [allBuffers]), e _ (by simp [allBuffers]), e _ (by simp [allBuffers]),
      e _ (by simp [allBuffers]), e _ (by simp [allBuffers]), e _ (by simp [allBuffers]),
      e _ (by simp [allBuffers]), e _ (by simp [allBuffers]), e _ (by simp [allBuffers]),
      e _ (by simp [allBuffers]), e _ (by simp [allBuffers]), e _ (by simp [allBuffers])]
  simp

theorem buffer_fillBuffers (s : State) (h : ∀ buf ∈ allBuffers s, buf.length = BUFF_SIZE)
    (b c : Nat) (hb : b < 2) (hc : c < 6) :
    buffer (fillBuffers s) b c = List.replicate BUFF_SIZE 0xFF := by
  rw [fillBuffers_eq s h]
  interval_cases b <;> interval_cases c <;> simp [buffer]

/-! ## Claims -/

theorem list_length_three (l : List Nat) (h : l.length = 3) : ∃ x y z, l = [x, y, z] := by
  match l, h with
  | [x, y, z], _ => exact ⟨x, y, z, rfl⟩

theorem updateMessage_cellMsg (s : State) (b c : Nat) (hl : s.cellMsg.length = CELL_MSG_LEN)
    (hb : b < 2) (hc : c < 6) :
    (updateMessage b c s).cellMsg =
      [(b <<< 4) ||| c, (average s b c >>> 8) % 256, average s b c % 256] := by
  obtain ⟨x, y, z, hxyz⟩ := list_length_three _ hl
  interval_cases b <;> interval_cases c <;> simp [updateMessage, average, u8, hxyz]

theorem average_updateMessage (s : State) (b c b2 c2 : Nat) :
    average (updateMessage b c s) b2 c2 = average s b2 c2 := by
  unfold updateMessage average
  split_ifs <;> rfl

theorem two_bytes_recompose (a : Nat) (h : a < 2 ^ 16) :
    (a >>> 8) % 256 * 256 + a % 256 = a := by
  rw [Nat.shiftRight_eq_div_pow]
  omega

/-- Claim C1.  For every battery index in 0..1 and cell index in 0..5,
`updateMessage` leaves the frame equal to the identity byte
`(batteryIndex << 4) | cellIndex` followed by bits 15..8 and bits 7..0 of the
stored average of that cell; encoding `(1, 5, 0xABCD)` gives
`[0x15, 0xAB, 0xCD]` and encoding `(0, 0, 0)` gives `[0, 0, 0]`. -/
theorem updateMessage_frame :
    (∀ (s : State) (b c : Nat), s.cellMsg.length = CELL_MSG_LEN → b < 2 → c < 6 →
      (updateMessage b c s).cellMsg =
        [(b <<< 4) ||| c, (average s b c >>> 8) % 256, average s b c % 256]) ∧
    encode 1 5 0xABCD = [0x15, 0xAB, 0xCD] ∧
    encode 0 0 0x0000 = [0x00, 0x00, 0x00] := by
  refine ⟨fun s b c hl hb hc => updateMessage_cellMsg s b c hl hb hc, ?_, ?_⟩
  · decide
  · decide

/-- Witness for C1: the frame built for battery 1, cell 5 in the state whose
average for that cell is `0xABCD`. -/
theorem updateMessage_frame_witness :
    (withAverage powerOn 1 5 0xABCD).cellMsg.length = CELL_MSG_LEN ∧ 1 < 2 ∧ 5 < 6 ∧
    (updateMessage 1 5 (withAverage powerOn 1 5 0xABCD)).cellMsg =
      [(1 <<< 4) ||| 5, (average (withAverage powerOn 1 5 0xABCD) 1 5 >>> 8) % 256,
        average (withAverage powerOn 1 5 0xABCD) 1 5 % 256] :=
  ⟨by decide, by decide, by decide,
    updateMessage_frame.1 (withAverage powerOn 1 5 0xABCD) 1 5 (by decide) (by decide)
      (by decide)⟩

set_option maxRecDepth 100000 in
/-- Claim C2, evaluated on the code.  With every buffer entry equal to `0xFF`
the buffer of battery 0, cell 0 has 127 entries that sum to 32385; `sumBuffers`
stores `32385 >> 7 = 253`, whereas the floor of the sum divided by the number
of entries is `255`. -/
theorem sumBuffers_average_not_floor_mean :
    (buffer filled 0 0).length = 127 ∧
    (buffer filled 0 0).sum = 32385 ∧
    average (sumBuffers filled) 0 0 = 253 ∧
    (buffer filled 0 0).sum / (buffer filled 0 0).length = 255 := by
  decide

/-- What `sumBuffers` stores: the buffer sum divided by `2 ^ BUFF_SIZE_INT`. -/
theorem average_sumBuffers_eq_div (s : State) (h : WellFormed s) (b c : Nat) (hb : b < 2)
    (hc : c < 6) :
    average (sumBuffers s) b c = (buffer s b c).sum / 2 ^ BUFF_SIZE_INT := by
  obtain ⟨hl, hx⟩ := wellFormed_buffer s h b c hb hc
  rw [average_sumBuffers s h.2.1.1 h.2.2.1.1 b c hb hc, acc32_full _ hl hx,
    Nat.shiftRight_eq_div_pow]

theorem visit_succ (n : Nat) : visit (n + 1) = schedulerNext (visit n) := by
  simp [visit, Function.iterate_succ_apply']

theorem visit_eq (n : Nat) : visit n = ((n / 6) % 2, n % 6) := by
  induction n with
  | zero => rfl
  | succ n ih =>
    rw [visit_succ, ih]
    unfold schedulerNext
    split_ifs with h1 h2 <;> simp only [Prod.mk.injEq] <;> omega

theorem window_mod (m : Nat) : window m = window (m % 12) := by
  unfold window
  apply List.map_congr_left
  intro k _
  rw [visit_eq, visit_eq]
  simp only [Prod.mk.injEq]
  omega

theorem window_count_small :
    ∀ r < 12, ∀ b < 2, ∀ c < 6, (window r).count (b, c) = 1 := by
  decide

theorem window_zero :
    window 0 = [(0, 0), (0, 1), (0, 2), (0, 3), (0, 4), (0, 5),
                (1, 0), (1, 1), (1, 2), (1, 3), (1, 4), (1, 5)] := by
  decide

/-- Claim C4.  Counting the advances of the scheduler loop of `main` from
start-up, every round of twelve consecutive advances visits the pairs
`(0,0), (0,1), ..., (0,5), (1,0), ..., (1,5)` in exactly this order, and in any
twelve consecutive advances each pair `(batteryIndex, cellIndex)` with
`batteryIndex < 2` and `cellIndex < 6` is visited exactly once. -/
theorem scheduler_round_robin :
    (∀ n : Nat, window (12 * n) =
      [(0, 0), (0, 1), (0, 2), (0, 3), (0, 4), (0, 5),
       (1, 0), (1, 1), (1, 2), (1, 3), (1, 4), (1, 5)]) ∧
    (∀ m b c : Nat, b < 2 → c < 6 → (window m).count (b, c) = 1) := by
  refine ⟨fun n => ?_, fun m b c hb hc => ?_⟩
  · rw [window_mod, Nat.mul_mod_right, window_zero]
  · rw [window_mod]
    exact window_count_small (m % 12) (Nat.mod_lt _ (by decide)) b hb c hc

/-- Witness for C4: the pair `(1, 3)` occurs once among the twelve advances
that begin with advance number 7. -/
theorem scheduler_round_robin_witness :
    1 < 2 ∧ 3 < 6 ∧ (window 7).count (1, 3) = 1 :=
  ⟨by decide, by decide, scheduler_round_robin.2 7 1 3 (by decide) (by decide)⟩

set_option maxRecDepth 100000 in
theorem acc32_sentinel : acc32 (List.replicate BUFF_SIZE 0xFF) BUFF_SIZE = BUFF_SIZE * 0xFF := by
  decide

/-- Claim C5.  After `fillBuffers` has set every entry of the twelve buffers
to the fill value `0xFF`, `sumBuffers` leaves every cell average equal to the
average derived from the fill value, `(BUFF_SIZE * 0xFF) >> BUFF_SIZE_INT`,
which is 253 and so is not zero. -/
theorem sumBuffers_after_fillBuffers (s : State) (h : WellFormed s) (b c : Nat) (hb : b < 2)
    (hc : c < 6) :
    average (sumBuffers (fillBuffers s)) b c = (BUFF_SIZE * 0xFF) >>> BUFF_SIZE_INT ∧
    (BUFF_SIZE * 0xFF) >>> BUFF_SIZE_INT = 253 ∧
    average (sumBuffers (fillBuffers s)) b c ≠ 0 := by
  have hlen : ∀ buf ∈ allBuffers s, buf.length = BUFF_SIZE := fun buf hbuf => (h.1 buf hbuf).1
  have h0 : (fillBuffers s).Bat0Cell.length = 6 := by rw [fillBuffers_eq s hlen]; exact h.2.1.1
  have h1 : (fillBuffers s).Bat1Cell.length = 6 := by rw [fillBuffers_eq s hlen]; exact h.2.2.1.1
  have e : average (sumBuffers (fillBuffers s)) b c = (BUFF_SIZE * 0xFF) >>> BUFF_SIZE_INT := by
    rw [average_sumBuffers _ h0 h1 b c hb hc, buffer_fillBuffers s hlen b c hb hc, acc32_sentinel]
  refine ⟨e, by decide, ?_⟩
  rw [e]
  decide

set_option maxRecDepth 100000 in
/-- Witness for C5: the power-on state, battery 1, cell 4. -/
theorem sumBuffers_after_fillBuffers_witness :
    WellFormed powerOn ∧ 1 < 2 ∧ 4 < 6 ∧
    average (sumBuffers (fillBuffers powerOn)) 1 4 = (BUFF_SIZE * 0xFF) >>> BUFF_SIZE_INT ∧
    (BUFF_SIZE * 0xFF) >>> BUFF_SIZE_INT = 253 ∧
    average (sumBuffers (fillBuffers powerOn)) 1 4 ≠ 0 :=
  ⟨by decide, by decide, by decide,
    sumBuffers_after_fillBuffers powerOn (by decide) 1 4 (by decide) (by decide)⟩

set_option maxRecDepth 100000 in
/-- Claim C7, evaluated on the code.  After the start-up sequence of `main`
the sampling interrupt is enabled while every entry of the twelve buffers is
still zero: `fillBuffers` has not run and no entry holds `0xFF`. -/
theorem mainStartup_buffers_unfilled :
    samplingEnabled (mainStartup reset) = true ∧
    (∀ b < 2, ∀ c < 6, buffer (mainStartup reset).mem b c = List.replicate BUFF_SIZE 0) ∧
    (∀ b < 2, ∀ c < 6, ∀ x ∈ buffer (mainStartup reset).mem b c, x ≠ 0xFF) ∧
    (mainStartup reset).mem ≠ fillBuffers powerOn := by
  decide

/-- Claim C9.  For buffers of 16-bit entries the 32-bit accumulation of
`sumBuffers` never wraps: after `k` iterations of the summing loop
(`k ≤ BUFF_SIZE`) the accumulator of every cell equals the exact sum of the
first `k` entries of its buffer, adding the next entry stays below `2^32`, and
the stored average is the exact sum of the buffer shifted right by
`BUFF_SIZE_INT`. -/
theorem sumBuffers_no_wrap (s : State) (h : WellFormed s) (b c : Nat) (hb : b < 2)
    (hc : c < 6) (k : Nat) (hk : k ≤ BUFF_SIZE) :
    average (sumLoop k s) b c = ((buffer s b c).take k).sum ∧
    average (sumLoop k s) b c + (buffer s b c).getD k 0 < 2 ^ 32 ∧
    average (sumBuffers s) b c = (buffer s b c).sum >>> BUFF_SIZE_INT := by
  obtain ⟨hl, hx⟩ := wellFormed_buffer s h b c hb hc
  have hk2 : k ≤ 2 ^ 16 := le_trans hk (by decide)
  have e : average (sumLoop k s) b c = ((buffer s b c).take k).sum := by
    rw [average_sumLoop s h.2.1.1 h.2.2.1.1 k b c hb hc, acc32_eq_sum_take _ hx k hk2]
  refine ⟨e, ?_, ?_⟩
  · rw [e, ← sum_take_succ_getD]
    have hb2 := sum_take_le (buffer s b c) (2 ^ 16 - 1)
      (fun x hxm => by have := hx x hxm; omega) (k + 1)
    have : (k + 1) * (2 ^ 16 - 1) ≤ (BUFF_SIZE + 1) * (2 ^ 16 - 1) :=
      Nat.mul_le_mul_right _ (by omega)
    have hc2 : (BUFF_SIZE + 1) * (2 ^ 16 - 1) < 2 ^ 32 := by decide
    omega
  · rw [average_sumBuffers s h.2.1.1 h.2.2.1.1 b c hb hc, acc32_full _ hl hx]

set_option maxRecDepth 100000 in
/-- Witness for C9: the state with every buffer entry `0xFF`, battery 0,
cell 2, after 100 iterations of the summing loop. -/
theorem sumBuffers_no_wrap_witness :
    WellFormed filled ∧ 0 < 2 ∧ 2 < 6 ∧ 100 ≤ BUFF_SIZE ∧
    average (sumLoop 100 filled) 0 2 = ((buffer filled 0 2).take 100).sum ∧
    average (sumLoop 100 filled) 0 2 + (buffer filled 0 2).getD 100 0 < 2 ^ 32 ∧
    average (sumBuffers filled) 0 2 = (buffer filled 0 2).sum >>> BUFF_SIZE_INT :=
  ⟨by decide, by decide, by decide, by decide,
    sumBuffers_no_wrap filled (by decide) 0 2 (by decide) (by decide) 100 (by decide)⟩

/-- Claim C10.  After `sumBuffers` followed by `updateMessage(b, c)` the
frame decodes to the same triple: the high nibble of byte 0 is the battery
index, the low nibble is the cell index, and bytes 1 and 2 read as a big-endian
number give the full stored average of that cell, which is below `2^16`. -/
theorem frame_round_trip (s : State) (h : WellFormed s) (b c : Nat) (hb : b < 2) (hc : c < 6) :
    (updateMessage b c (sumBuffers s)).cellMsg.getD 0 0 >>> 4 = b ∧
    (updateMessage b c (sumBuffers s)).cellMsg.getD 0 0 &&& 0x0F = c ∧
    (updateMessage b c (sumBuffers s)).cellMsg.getD 1 0 * 256
        + (updateMessage b c (sumBuffers s)).cellMsg.getD 2 0
      = average (updateMessage b c (sumBuffers s)) b c ∧
    average (updateMessage b c (sumBuffers s)) b c < 2 ^ 16 := by
  obtain ⟨hl, hx⟩ := wellFormed_buffer s h b c hb hc
  have hmsg : (sumBuffers s).cellMsg.length = CELL_MSG_LEN := by
    rw [sumBuffers_eq s h.2.1.1 h.2.2.1.1]; exact h.2.2.2.1.1
  have havg : average (sumBuffers s) b c < 2 ^ 16 := by
    rw [average_sumBuffers_eq_div s h b c hb hc]
    have := sum_le_of_wellFormed _ hl hx
    have h2 : BUFF_SIZE * (2 ^ 16 - 1) < 2 ^ BUFF_SIZE_INT * 2 ^ 16 := by decide
    exact Nat.div_lt_of_lt_mul (lt_of_le_of_lt this h2)
  rw [average_updateMessage, updateMessage_cellMsg _ b c hmsg hb hc]
  simp only [List.getD_cons_zero, List.getD_cons_succ]
  refine ⟨?_, ?_, two_bytes_recompose _ havg, havg⟩
  · clear hl hx hmsg havg
    interval_cases b <;> interval_cases c <;> decide
  · clear hl hx hmsg havg
    interval_cases b <;> interval_cases c <;> decide

set_option maxRecDepth 100000 in
/-- Witness for C10: the state with every buffer entry `0xFF`, battery 1,
cell 5. -/
theorem frame_round_trip_witness :
    WellFormed filled ∧ 1 < 2 ∧ 5 < 6 ∧
    ((updateMessage 1 5 (sumBuffers filled)).cellMsg.getD 0 0 >>> 4 = 1 ∧
    (updateMessage 1 5 (sumBuffers filled)).cellMsg.getD 0 0 &&& 0x0F = 5 ∧
    (updateMessage 1 5 (sumBuffers filled)).cellMsg.getD 1 0 * 256
        + (updateMessage 1 5 (sumBuffers filled)).cellMsg.getD 2 0
      = average (updateMessage 1 5 (sumBuffers filled)) 1 5 ∧
    average (updateMessage 1 5 (sumBuffers filled)) 1 5 < 2 ^ 16) :=
  ⟨by decide, by decide, by decide,
    frame_round_trip filled (by decide) 1 5 (by decide) (by decide)⟩

end BatteryMonitor
